import Mathlib

/-!
Verification of the document-ingestion / retrieval-grounding system
(`mcp_server.py`, `mcp_ollama.py`, `vector_utils.py`, `app.py`).

The Python source is shallowly embedded below.  External collaborators
(the sentence-transformer embedding model, the FAISS vector store, the
Ollama generation gateway, the file system) are modelled as explicit
function parameters or as pre-computed `Except` inputs, following the
spec's designation of them as external.  Machine floats carrying
similarity scores are modelled as rationals (only ordering and equality
with literals matter to the code).  Python exceptions are modelled with
`Option` / `Except`.
-/

/-- Similarity vectors: a FAISS row is a fixed-dimension float vector.  Float
components and similarity scores are observed by the code only through ring
arithmetic (inner products), ordering comparisons against thresholds, and
equality tests against the literal `-1`, so they are modelled by an arbitrary
linearly ordered commutative ring `α` (concrete witnesses use `ℤ`). -/
abbrev Vec (α : Type) := List α

/-- Helper for `pySplit`: walks the character list, accumulating the current
word (reversed) and emitting it when whitespace or the end is reached. -/
def splitWsAux : List Char → List Char → List (List Char)
  | [], acc => if acc.isEmpty then [] else [acc.reverse]
  | c :: cs, acc =>
    if c.isWhitespace then
      if acc.isEmpty then splitWsAux cs [] else acc.reverse :: splitWsAux cs []
    else splitWsAux cs (c :: acc)

/-- Python `str.split()` with no argument: split on runs of whitespace,
discarding empty fragments (leading and trailing whitespace ignored). -/
def pySplit (s : String) : List String :=
  (splitWsAux s.data []).map (fun l => String.mk l)

/-- Python `sep.join(l)` on a list of strings. -/
def pyJoin (sep : String) : List String → String
  | [] => ""
  | [x] => x
  | x :: y :: xs => x ++ sep ++ pyJoin sep (y :: xs)

/-- One chunk record built by `MCPServer.chunk_text`: the dict
`{'text': ..., 'file_id': ..., 'file_name': ..., 'file_type': ...}`.
`none` models Python `None`. -/
structure ChunkInfo where
  text : String
  file_id : Option String
  file_name : Option String
  file_type : Option String
deriving Repr, DecidableEq

/-- The `while i < len(words)` loop of `MCPServer.chunk_text`, with explicit
fuel: `none` means the loop has not finished within `fuel` iterations.
Each iteration emits `words[i:i+chunk_size]` joined by a space and advances
`i` by `chunk_size - overlap` (for `overlap ≤ chunk_size` the truncated
natural subtraction agrees with Python's integer arithmetic; for
`overlap > chunk_size` Python's index becomes negative and the loop is
likewise non-terminating). -/
def chunkTextFuel (chunk_size overlap : Nat) (fid fname ftype : Option String)
    (words : List String) : Nat → Nat → Option (List ChunkInfo)
  | 0, _ => none
  | fuel + 1, i =>
    if i < words.length then
      let w := (words.drop i).take chunk_size
      let info : ChunkInfo := ⟨pyJoin " " w, fid, fname, ftype⟩
      (chunkTextFuel chunk_size overlap fid fname ftype words fuel
        (i + (chunk_size - overlap))).map (info :: ·)
    else
      some []

/-- `MCPServer.chunk_text(text, chunk_size, overlap, file_id, file_name,
file_type)`.  The fuel `words.length + 1` suffices whenever the stride
`chunk_size - overlap` is at least 1 (proved below); the `getD []` default
is never reached in that case. -/
def chunk_text (text : String) (chunk_size overlap : Nat)
    (fid fname ftype : Option String) : List ChunkInfo :=
  let words := pySplit text
  (chunkTextFuel chunk_size overlap fid fname ftype words (words.length + 1) 0).getD []

/-- Number of windows the sliding-window chunker emits over `len` tokens with
the given stride: the count of indices `0, stride, 2*stride, …` below `len`. -/
def numWindows (len stride : Nat) : Nat :=
  (len + stride - 1) / stride

lemma string_eq_empty_of_length (c : String) (h : c.length = 0) : c = "" := by
  have h2 : c.data = [] := List.length_eq_zero.mp h
  exact String.ext (by simp [h2])

lemma pyJoin_ne_empty (sep : String) (c : String) (cs : List String)
    (hc : c ≠ "") : pyJoin sep (c :: cs) ≠ "" := by
  cases cs with
  | nil => simpa [pyJoin] using hc
  | cons d ds =>
    intro h
    have hlen := congrArg String.length h
    simp only [pyJoin, String.length_append] at hlen
    have hc0 : c.length = 0 := by
      have : ("" : String).length = 0 := rfl
      omega
    exact hc (string_eq_empty_of_length c hc0)

lemma chunkTextFuel_isSome (chunk_size overlap : Nat)
    (fid fname ftype : Option String) (words : List String)
    (hstride : 1 ≤ chunk_size - overlap) :
    ∀ fuel i, words.length - i < fuel →
      (chunkTextFuel chunk_size overlap fid fname ftype words fuel i).isSome := by
  intro fuel
  induction fuel with
  | zero => intro i h; omega
  | succ f ih =>
    intro i h
    by_cases hi : i < words.length
    · have := ih (i + (chunk_size - overlap)) (by omega)
      simp only [chunkTextFuel, if_pos hi]
      cases hopt : chunkTextFuel chunk_size overlap fid fname ftype words f
          (i + (chunk_size - overlap)) with
      | none => rw [hopt] at this; simp at this
      | some l => simp
    · simp [chunkTextFuel, if_neg hi]

/-! ## `mcp_ollama.py` : `MCPWrapperOllama` -/

/-- State of an `MCPWrapperOllama` instance: the FAISS inner-product index
(`None` until `_ensure_index` runs; its stored rows otherwise), the parallel
`doc_chunks` list, and a count of calls made to the embedding gateway
(`SentenceTransformer.encode`), which the code issues once per document on
ingestion and once per question on retrieval. -/
structure OllamaState (α : Type) where
  index : Option (List (Vec α))
  doc_chunks : List String
  embedCalls : Nat
deriving Repr, DecidableEq

/-- Fresh `MCPWrapperOllama`: `self.index = None`, `self.doc_chunks = []`. -/
def ollamaInit (α : Type) : OllamaState α := ⟨none, [], 0⟩

/-- `MCPWrapperOllama.chunk_text`: fixed-size windows
`[' '.join(words[i:i+chunk_size]) for i in range(0, len(words), chunk_size)]`.
`pyRangeStep stop step` models `range(0, stop, step)` for `step ≥ 1`
(the class is always constructed with `chunk_size = 300`). -/
def pyRangeStep (stop step : Nat) : List Nat :=
  (List.range stop).filter (fun i => decide (i % step = 0))

def ollamaChunkText (chunk_size : Nat) (text : String) : List String :=
  let words := pySplit text
  (pyRangeStep words.length chunk_size).map
    (fun i => pyJoin " " ((words.drop i).take chunk_size))

/-- `MCPWrapperOllama.ingest_documents(documents, refresh)`.  With
`refresh=True` the chunk list is cleared and, if an index exists, it is
`reset()`; then each document is chunked, its chunks extend `doc_chunks`,
and one embedding-gateway call per document produces the chunk vectors
(L2-normalisation of the embeddings is folded into `embedN`, which models
`encode` composed with `faiss.normalize_L2`).  With no documents the
method returns before touching the index (`if not embeddings: return`);
otherwise `_ensure_index` creates the index on first use and all new
vectors are appended. -/
def ingest_documents {α : Type} (chunk_size : Nat) (embedN : String → Vec α)
    (documents : List String) (refresh : Bool) (st : OllamaState α) : OllamaState α :=
  let st1 := if refresh then
      { st with doc_chunks := [], index := st.index.map (fun _ => ([] : List (Vec α))) }
    else st
  if documents.isEmpty then st1
  else
    let newChunks := (documents.map (ollamaChunkText chunk_size)).flatten
    let newVecs := newChunks.map embedN
    { index := some (st1.index.getD [] ++ newVecs),
      doc_chunks := st1.doc_chunks ++ newChunks,
      embedCalls := st1.embedCalls + documents.length }

/-- Inner product of two stored float rows. -/
def dot {α : Type} [LinearOrderedCommRing α] (u v : Vec α) : α :=
  (List.zipWith (fun a b => a * b) u v).foldr (fun a b => a + b) 0

/-- Insert an (index, score) pair into a list sorted by strictly descending
score, after any pair of equal score (so earlier indices stay first). -/
def insertByScoreDesc {α : Type} [LinearOrderedCommRing α] (p : Nat × α) :
    List (Nat × α) → List (Nat × α)
  | [] => [p]
  | q :: qs => if q.2 < p.2 then p :: q :: qs else q :: insertByScoreDesc p qs

/-- Sort (index, score) pairs best-first (descending score, ties by the
order the pairs are listed, i.e. ascending index). -/
def sortByScoreDesc {α : Type} [LinearOrderedCommRing α]
    (l : List (Nat × α)) : List (Nat × α) :=
  l.foldl (fun acc p => insertByScoreDesc p acc) []

/-- The genuinely ranked part of a FAISS `IndexFlatIP.search`: every stored
row scored against the query by inner product, the `top_k` best (row index,
score) pairs, best-first. -/
def rankByIP {α : Type} [LinearOrderedCommRing α]
    (vecs : List (Vec α)) (qv : Vec α) (top_k : Nat) : List (Nat × α) :=
  (sortByScoreDesc ((List.range vecs.length).map
    (fun i => (i, dot qv (vecs.getD i []))))).take top_k

/-- FAISS `IndexFlatIP.search(query_vector, top_k)` including its padding
behaviour: when fewer than `top_k` rows exist, the remaining slots are
filled with label `-1` (modelled as `none`; genuine row indices are
`some i`) and with the inner-product heap's neutral score — the most
negative float, `-FLT_MAX` — which the `pad` parameter stands for. -/
def faissSearchIP {α : Type} [LinearOrderedCommRing α] (pad : α)
    (vecs : List (Vec α)) (qv : Vec α) (top_k : Nat) : List (Option Nat × α) :=
  let ranked := rankByIP vecs qv top_k
  ranked.map (fun p => (some p.1, p.2))
    ++ List.replicate (top_k - ranked.length) ((none : Option Nat), pad)

/-- `MCPWrapperOllama.retrieve_with_scores(query, top_k)`: returns
`([], [])` when the index is `None` or `doc_chunks` is empty; otherwise
embeds the query, searches the index, maps result rows back to chunk texts
(`if i != -1` drops exactly the pad labels), and keeps the scores that are
not equal to `-1` (`if s != -1`) — note this drops genuine scores equal to
`-1` while pad scores (`-FLT_MAX ≠ -1`) survive into the score list. -/
def retrieve_with_scores {α : Type} [LinearOrderedCommRing α] (pad : α)
    (embedN : String → Vec α) (st : OllamaState α)
    (question : String) (top_k : Nat) : List String × List α :=
  if st.index.isNone || st.doc_chunks.isEmpty then ([], [])
  else
    let qv := embedN question
    let ranked := faissSearchIP pad (st.index.getD []) qv top_k
    let results := (ranked.filter (fun p => p.1.isSome)).map
      (fun p => st.doc_chunks.getD (p.1.getD 0) "")
    let scores := (ranked.map (fun p => p.2)).filter (fun s => decide (s ≠ -1))
    (results, scores)

/-- `MCPWrapperOllama.build_prompt(question, context_chunks)`: joins the
chunks with blank lines; a non-empty joined context selects the
context/question template, otherwise the bare question template. -/
def build_prompt (question : String) (context_chunks : List String) : String :=
  let context := if context_chunks.isEmpty then "" else pyJoin "\n\n" context_chunks
  if context ≠ "" then
    "Context:\n" ++ context ++ "\n\nQuestion:\n" ++ question ++ "\nAnswer:"
  else
    "Question:\n" ++ question ++ "\nAnswer:"

/-- The three grounding strategies of the query policy. -/
inductive GroundingMode where
  | strict
  | hybrid
  | ungrounded
deriving Repr, DecidableEq

/-- How `MCPWrapperOllama.query` can fail: `indexError` models the Python
`IndexError` raised by `scores[0]` when the score list is empty while
chunks were retrieved; `generationError` models an exception propagating
out of `ollama.generate`. -/
inductive QueryError where
  | indexError
  | generationError (msg : String)
deriving Repr, DecidableEq

/-- The `if / elif / else` prompt construction of `MCPWrapperOllama.query`,
applied to the retrieval output. `none` is the `IndexError` path: Python
evaluates `relevant_chunks and scores[0] >= strong_threshold`, so with a
non-empty chunk list and an empty score list `scores[0]` raises. -/
def queryPromptOf {α : Type} [LinearOrderedCommRing α] (question : String)
    (strong weak : α) (relevant_chunks : List String) (scores : List α) :
    Option String :=
  if relevant_chunks.isEmpty then
    some ("Question:\n" ++ question ++ "\nAnswer:")
  else
    match scores with
    | [] => none
    | s :: _ =>
      if s ≥ strong then some (build_prompt question relevant_chunks)
      else if s ≥ weak then
        some ("Use the following context if relevant, but also apply your own reasoning:\n"
          ++ pyJoin "\n\n" relevant_chunks ++ "\n\nQuestion:\n" ++ question ++ "\nAnswer:")
      else some ("Question:\n" ++ question ++ "\nAnswer:")

/-- The grounding mode selected by the same `if / elif / else` chain. -/
def groundingModeOf {α : Type} [LinearOrderedCommRing α]
    (relevant_chunks : List String) (scores : List α) (strong weak : α) :
    Option GroundingMode :=
  if relevant_chunks.isEmpty then some GroundingMode.ungrounded
  else
    match scores with
    | [] => none
    | s :: _ =>
      if s ≥ strong then some GroundingMode.strict
      else if s ≥ weak then some GroundingMode.hybrid
      else some GroundingMode.ungrounded

/-- `MCPWrapperOllama.query(question, strong_threshold, weak_threshold,
top_k)`: retrieve, build the mode-specific prompt, call the generation
gateway (`gen` models `ollama.generate`; an `Except.error` is an exception
from it), and return `response['response']` verbatim. -/
def query {α : Type} [LinearOrderedCommRing α] (pad : α)
    (embedN : String → Vec α)
    (gen : String → Except String String) (st : OllamaState α)
    (question : String) (strong weak : α) (top_k : Nat) :
    Except QueryError String :=
  let r := retrieve_with_scores pad embedN st question top_k
  match queryPromptOf question strong weak r.1 r.2 with
  | none => Except.error QueryError.indexError
  | some prompt =>
    match gen prompt with
    | Except.ok t => Except.ok t
    | Except.error e => Except.error (QueryError.generationError e)

/-- Modelled from the spec (§4.2, step 3 of §4.4): classify the grounding
mode from the best retrieved score using a configured comparator direction —
`lowerIsBetter = true` for distance metrics ("meets/exceeds a threshold"
means the score is at most the threshold), `false` for cosine/inner-product
metrics; no result classifies as ungrounded. -/
def specClassify {α : Type} [LinearOrderedCommRing α] (lowerIsBetter : Bool)
    (best : Option α) (strong weak : α) : GroundingMode :=
  match best with
  | none => GroundingMode.ungrounded
  | some b =>
    if lowerIsBetter then
      if b ≤ strong then GroundingMode.strict
      else if b ≤ weak then GroundingMode.hybrid
      else GroundingMode.ungrounded
    else
      if b ≥ strong then GroundingMode.strict
      else if b ≥ weak then GroundingMode.hybrid
      else GroundingMode.ungrounded

/-- The best (first-ranked) genuine similarity score retrieval produces for
a question — pad slots are not retrieved scores of any stored row —
`none` when the index is absent, the chunk list empty, or the search
returns no genuine rows. -/
def bestScoreOf {α : Type} [LinearOrderedCommRing α] (embedN : String → Vec α)
    (st : OllamaState α) (question : String) (top_k : Nat) : Option α :=
  if st.index.isNone || st.doc_chunks.isEmpty then none
  else ((rankByIP (st.index.getD []) (embedN question) top_k).map
    (fun p => p.2)).head?

/-- Integer stand-in for `-FLT_MAX` (about `-3.4e38`), the exact value a
single-precision float can be most negative: FAISS writes it into the
padded score slots; concrete witnesses instantiate the pad parameter
with it. -/
def faissPadScore : ℤ := -340282346638528859811704183484516925440

/-- Modelled from the spec (§6): the literal prompt template of each
grounding mode, populated with the joined retrieved chunks and the
question (the ungrounded template carries no context). -/
def specPromptTemplate : GroundingMode → String → String → String
  | GroundingMode.strict, ctx, q =>
      "Context:\n" ++ ctx ++ "\n\nQuestion:\n" ++ q ++ "\nAnswer:"
  | GroundingMode.hybrid, ctx, q =>
      "Use the following context if relevant, but also apply your own reasoning:\n"
        ++ ctx ++ "\n\nQuestion:\n" ++ q ++ "\nAnswer:"
  | GroundingMode.ungrounded, _, q =>
      "Question:\n" ++ q ++ "\nAnswer:"

/-! ## `vector_utils.py` : `VectorIndex` -/

/-- State of a `VectorIndex`: the FAISS L2 index (`None` until the first
`add_documents`; its stored rows otherwise), the parallel `text_chunks`
list, and the numpy `embeddings` stack the class keeps alongside. -/
structure VectorIndexState (α : Type) where
  index : Option (List (Vec α))
  text_chunks : List String
  embeddings : Option (List (Vec α))
deriving Repr, DecidableEq

/-- Fresh `VectorIndex`: `index = None`, `text_chunks = []`,
`embeddings = None`. -/
def vectorIndexInit (α : Type) : VectorIndexState α := ⟨none, [], none⟩

/-- `VectorIndex.add_documents(docs)`: encode every doc (one vector each,
`encode` models the embedding gateway), create the L2 index on first use or
stack onto the existing embeddings, `index.add(vectors)`, and extend
`text_chunks` with the docs. -/
def add_documents {α : Type} (encode : String → Vec α) (docs : List String)
    (vs : VectorIndexState α) : VectorIndexState α :=
  let vectors := docs.map encode
  match vs.index with
  | none =>
      { index := some vectors, text_chunks := vs.text_chunks ++ docs,
        embeddings := some vectors }
  | some rows =>
      { index := some (rows ++ vectors), text_chunks := vs.text_chunks ++ docs,
        embeddings := some (vs.embeddings.getD [] ++ vectors) }

/-! ## `mcp_server.py` : `MCPServer` -/

/-- The stored `file_info` dict of an ingested file. -/
structure FileInfo where
  id : String
  name : String
  path : String
  size : Nat
  type : String
  content : String
  ingested_at : String
  metadata : List (String × String)
deriving Repr, DecidableEq

/-- State of an `MCPServer`: the `ingested_files` dict (an association list
keyed by content hash), the `VectorIndex`, and the lazily created
`chunk_metadata` attribute (`none` models the attribute not existing yet,
the `hasattr` pattern in `ingest_file`). -/
structure ServerState (α : Type) where
  ingested_files : List (String × FileInfo)
  vindex : VectorIndexState α
  chunk_metadata : Option (List ChunkInfo)
deriving Repr, DecidableEq

/-- Fresh `MCPServer` with an empty store. -/
def serverInit (α : Type) : ServerState α := ⟨[], vectorIndexInit α, none⟩

/-- Everything `ingest_file` observes about the outside world for one call:
the path checks, the outcome of each fallible external operation, and the
clock.  `hashResult`, `statSize` and `pdfText` are `Except` values — an
`error` models the corresponding Python call raising an exception with that
message.  `read_text_file` catches all its own exceptions and always
produces a string, so `textContent` is that string.  `embedError` is the
exception message if the embedding gateway call inside
`VectorIndex.add_documents` raises, `none` if it succeeds. -/
structure FileInput where
  pathStr : String
  exists_ : Bool
  hashResult : Except String String
  statSize : Except String Nat
  mimeType : Option String
  suffix : String
  name : String
  absPath : String
  pdfText : Except String String
  textContent : String
  embedError : Option String
  metadata : Option (List (String × String))
  now : String
deriving Repr

/-- `MCPServer.get_file_hash`: returns the hex digest, or logs and returns
`""` when hashing raised. -/
def get_file_hash (f : FileInput) : String :=
  match f.hashResult with
  | Except.ok h => h
  | Except.error _ => ""

/-- Result dict returned by `MCPServer.ingest_file`. -/
inductive IngestResult where
  | error (msg : String)
  | alreadyExists (file_id : String) (message : String)
  | success (file_id : String) (name : String) (size : Nat) (ftype : String)
deriving Repr, DecidableEq

/-- The keys and values of the Python dict each `IngestResult` stands for. -/
def resultDict : IngestResult → List (String × String)
  | IngestResult.error m => [("error", m)]
  | IngestResult.alreadyExists fid m =>
      [("status", "already_exists"), ("file_id", fid), ("message", m)]
  | IngestResult.success fid n sz t =>
      [("status", "success"), ("file_id", fid), ("name", n),
       ("size", toString sz), ("type", t)]

/-- The suffix whitelist of `ingest_file`'s text-like branch. -/
def textSuffixes : List String :=
  [".txt", ".md", ".py", ".js", ".html", ".css", ".json", ".xml", ".yml", ".yaml"]

/-- The extracted `content` string of `ingest_file`: PDF extraction first
(suffix check), then MIME `text/*`, then the suffix whitelist, else the
binary placeholder. -/
def ingestContent (f : FileInput) (file_type : String) (file_size : Nat) : String :=
  if f.suffix = ".pdf" then
    match f.pdfText with
    | Except.ok t => t
    | Except.error e => "[Error reading PDF: " ++ e ++ "]"
  else if file_type.startsWith "text/" then f.textContent
  else if f.suffix ∈ textSuffixes then f.textContent
  else "[Binary file: " ++ f.name ++ ", size: " ++ toString file_size ++ " bytes]"

/-- `MCPServer.ingest_file(file_path, metadata)`.  The whole body runs in
`try: ... except Exception as e: return {"error": ...}`; fallible external
steps are the `Except` fields of `f`.  `save_files_db` catches its own
exceptions (persistence failure is logged, never fails the call) and the
in-memory `ingested_files` dict is updated regardless, so it needs no
failure input. -/
def ingest_file {α : Type} (encode : String → Vec α) (f : FileInput)
    (st : ServerState α) : IngestResult × ServerState α :=
  if ¬ f.exists_ then
    (IngestResult.error ("File not found: " ++ f.pathStr), st)
  else
    let file_hash := get_file_hash f
    match f.statSize with
    | Except.error e => (IngestResult.error ("Error ingesting file: " ++ e), st)
    | Except.ok file_size =>
      let file_type := f.mimeType.getD "unknown"
      if (st.ingested_files.lookup file_hash).isSome then
        (IngestResult.alreadyExists file_hash ("File already ingested: " ++ f.name), st)
      else
        let content := ingestContent f file_type file_size
        let indexable := content ≠ "" ∧ ¬ content.startsWith "[Binary file"
          ∧ ¬ content.startsWith "[Error"
        let afterIndex : Option (ServerState α) :=
          if indexable then
            match f.embedError with
            | some _ => none
            | none =>
              let chunks := chunk_text content 512 64 (some file_hash) (some f.name)
                (some file_type)
              some { st with
                vindex := add_documents encode (chunks.map (fun c => c.text)) st.vindex,
                chunk_metadata := some (st.chunk_metadata.getD [] ++ chunks) }
          else some st
        match afterIndex with
        | none =>
          (IngestResult.error ("Error ingesting file: " ++ (f.embedError.getD "")), st)
        | some st1 =>
          let info : FileInfo :=
            { id := file_hash, name := f.name, path := f.absPath, size := file_size,
              type := file_type, content := content, ingested_at := f.now,
              metadata := f.metadata.getD [] }
          let st2 := { st1 with ingested_files := st1.ingested_files ++ [(file_hash, info)] }
          (IngestResult.success file_hash f.name file_size file_type, st2)

/-! ## `app.py` : incremental index synchronisation in `send_message` -/

/-- The incremental-sync block at the top of `app.send_message`: list the
store's files, compute `current_file_ids - ingested_files`, and when new
files exist, ingest exactly their contents with `refresh=False` and replace
the known-id set with the current one; with no new files, nothing runs.
`files` models `mcp_server.list_files()` paired with each file's stored
content (`mcp_server.get_file(id)["content"]`), in store order; `ingested`
is the module-global known-id set. -/
def syncIncremental {α : Type} (chunk_size : Nat) (embedN : String → Vec α)
    (files : List (String × String)) (ingested : List String)
    (st : OllamaState α) : OllamaState α × List String :=
  let current := files.map (fun p => p.1)
  let newFiles := current.filter (fun id => ¬ ingested.contains id)
  if ¬ newFiles.isEmpty then
    let new_docs := (files.filter (fun p => newFiles.contains p.1)).map (fun p => p.2)
    (ingest_documents chunk_size embedN new_docs false st, current)
  else (st, ingested)

/-! ## Claims about the chunker (`MCPServer.chunk_text`) -/

lemma numWindows_succ (m stride : Nat) (hs : 1 ≤ stride) (hm : 1 ≤ m) :
    numWindows m stride = numWindows (m - stride) stride + 1 := by
  unfold numWindows
  rcases le_or_lt m stride with hms | hms
  · have h1 : m - stride = 0 := by omega
    have h2 : m + stride - 1 = (m - 1) + stride := by omega
    rw [h1, h2, Nat.add_div_right _ hs, Nat.div_eq_of_lt (by omega),
      Nat.div_eq_of_lt (by omega)]
  · have h2 : m + stride - 1 = (m - 1) + stride := by omega
    have h3 : m - stride + stride - 1 = m - 1 := by omega
    rw [h2, h3, Nat.add_div_right _ hs]

lemma chunkTextFuel_eq (chunk_size overlap : Nat) (fid fname ftype : Option String)
    (words : List String) (hstride : 1 ≤ chunk_size - overlap) :
    ∀ fuel i, words.length - i < fuel →
      chunkTextFuel chunk_size overlap fid fname ftype words fuel i =
        some ((List.range (numWindows (words.length - i) (chunk_size - overlap))).map
          (fun k => ⟨pyJoin " " ((words.drop (i + k * (chunk_size - overlap))).take chunk_size),
            fid, fname, ftype⟩)) := by
  intro fuel
  induction fuel with
  | zero => intro i h; omega
  | succ f ih =>
    intro i h
    by_cases hi : i < words.length
    · rw [chunkTextFuel, if_pos hi, ih (i + (chunk_size - overlap)) (by omega)]
      rw [Option.map_some']
      congr 1
      have hm : 1 ≤ words.length - i := by omega
      rw [numWindows_succ _ _ hstride hm]
      have hsub : words.length - (i + (chunk_size - overlap))
          = words.length - i - (chunk_size - overlap) := by omega
      rw [hsub] at *
      rw [List.range_succ_eq_map, List.map_cons, List.map_map]
      congr 1
      · simp
      · apply List.map_congr_left
        intro k _
        have harith : i + (k + 1) * (chunk_size - overlap)
            = i + (chunk_size - overlap) + k * (chunk_size - overlap) := by ring
        simp [Function.comp, harith]
    · rw [chunkTextFuel, if_neg hi]
      have hm : words.length - i = 0 := by omega
      rw [hm]
      have : numWindows 0 (chunk_size - overlap) = 0 :=
        Nat.div_eq_of_lt (by omega)
      rw [this]
      simp

lemma chunk_text_eq (text : String) (chunk_size overlap : Nat)
    (fid fname ftype : Option String) (hstride : 1 ≤ chunk_size - overlap) :
    chunk_text text chunk_size overlap fid fname ftype =
      (List.range (numWindows (pySplit text).length (chunk_size - overlap))).map
        (fun k => ⟨pyJoin " " (((pySplit text).drop (k * (chunk_size - overlap))).take chunk_size),
          fid, fname, ftype⟩) := by
  show (chunkTextFuel chunk_size overlap fid fname ftype (pySplit text)
    ((pySplit text).length + 1) 0).getD [] = _
  rw [chunkTextFuel_eq chunk_size overlap fid fname ftype (pySplit text) hstride
    ((pySplit text).length + 1) 0 (by omega)]
  simp

/-- C4: for `windowSize ≥ 1` and `overlap < windowSize`, `MCPServer.chunk_text`
tokenizes on whitespace and emits windows of `windowSize` tokens whose start
positions advance by `windowSize − overlap` tokens (the final window may be
shorter, word order is preserved); in particular
`chunk("a b c d e", 2, 0)` is exactly `["a b", "c d", "e"]` and with
`overlap = 1` over five tokens the windows step by one token. -/
theorem chunk_text_sliding_window (text : String) (chunk_size overlap : Nat)
    (fid fname ftype : Option String)
    (_hcs : 1 ≤ chunk_size) (hov : overlap < chunk_size) :
    ((chunk_text text chunk_size overlap fid fname ftype).map (fun c => c.text)
      = (List.range (numWindows (pySplit text).length (chunk_size - overlap))).map
          (fun k => pyJoin " " (((pySplit text).drop (k * (chunk_size - overlap))).take chunk_size)))
    ∧ (chunk_text "a b c d e" 2 0 none none none).map (fun c => c.text)
        = ["a b", "c d", "e"]
    ∧ (chunk_text "a b c d e" 2 1 none none none).map (fun c => c.text)
        = ["a b", "b c", "c d", "d e", "e"] := by
  refine ⟨?_, by decide, by decide⟩
  rw [chunk_text_eq text chunk_size overlap fid fname ftype (by omega)]
  rw [List.map_map]
  rfl

/-- C4 witness: the theorem instantiated at `text = "a b c d e"`,
`windowSize = 2`, `overlap = 0`. -/
theorem chunk_text_sliding_window_witness :
    ((chunk_text "a b c d e" 2 0 none none none).map (fun c => c.text)
      = (List.range (numWindows (pySplit "a b c d e").length (2 - 0))).map
          (fun k => pyJoin " " (((pySplit "a b c d e").drop (k * (2 - 0))).take 2)))
    ∧ (chunk_text "a b c d e" 2 0 none none none).map (fun c => c.text)
        = ["a b", "c d", "e"]
    ∧ (chunk_text "a b c d e" 2 1 none none none).map (fun c => c.text)
        = ["a b", "b c", "c d", "d e", "e"] :=
  chunk_text_sliding_window "a b c d e" 2 0 none none none (by decide) (by decide)

lemma chunkTextFuel_none_of_no_stride (chunk_size overlap : Nat)
    (fid fname ftype : Option String) (words : List String)
    (hstride : chunk_size ≤ overlap) (i : Nat) (hi : i < words.length) :
    ∀ fuel, chunkTextFuel chunk_size overlap fid fname ftype words fuel i = none := by
  intro fuel
  induction fuel with
  | zero => rfl
  | succ f ih =>
    rw [chunkTextFuel, if_pos hi]
    have h0 : chunk_size - overlap = 0 := by omega
    rw [h0]
    simp only [Nat.add_zero]
    rw [ih]
    rfl

/-- C5: the claim is right and the code is wrong — `MCPServer.chunk_text`
neither rejects nor clamps `overlap ≥ windowSize`, so its `while` loop never
advances `i` and never terminates on any non-empty token list; here
`chunk_text("a", chunk_size=2, overlap=2)` runs out of any amount of fuel. -/
theorem chunk_text_diverges_on_overlap_eq_window :
    ∀ fuel, chunkTextFuel 2 2 none none none ["a"] fuel 0 = none :=
  chunkTextFuel_none_of_no_stride 2 2 none none none ["a"] (by decide) 0 (by decide)

/-! ## Claim C2: vector-store / chunk-list alignment invariant -/

/-- One mutation of the `MCPWrapperOllama` index/chunk pair: a call to
`ingest_documents` (startup `refreshAll` uses `refresh=True`, the
incremental sync of `send_message` uses `refresh=False`). -/
inductive OllamaOp where
  | ingest (documents : List String) (refresh : Bool)

def applyOllamaOp {α : Type} (chunk_size : Nat) (embedN : String → Vec α)
    (st : OllamaState α) : OllamaOp → OllamaState α
  | OllamaOp.ingest docs r => ingest_documents chunk_size embedN docs r st

lemma ingest_documents_alignment {α : Type} (chunk_size : Nat)
    (embedN : String → Vec α) (docs : List String) (r : Bool) (st : OllamaState α)
    (h : st.index.getD [] = st.doc_chunks.map embedN) :
    (ingest_documents chunk_size embedN docs r st).index.getD []
      = (ingest_documents chunk_size embedN docs r st).doc_chunks.map embedN := by
  unfold ingest_documents
  cases r <;> by_cases hd : docs.isEmpty <;> cases hidx : st.index <;>
    simp_all [List.map_append]

lemma foldl_ollama_alignment {α : Type} (chunk_size : Nat)
    (embedN : String → Vec α) (ops : List OllamaOp) :
    ∀ st : OllamaState α, st.index.getD [] = st.doc_chunks.map embedN →
      (ops.foldl (applyOllamaOp chunk_size embedN) st).index.getD []
        = (ops.foldl (applyOllamaOp chunk_size embedN) st).doc_chunks.map embedN := by
  induction ops with
  | nil => intro st h; exact h
  | cons op rest ih =>
    intro st h
    cases op with
    | ingest docs r =>
      exact ih _ (ingest_documents_alignment chunk_size embedN docs r st h)

lemma add_documents_alignment {α : Type} (encode : String → Vec α)
    (docs : List String) (vs : VectorIndexState α)
    (h : vs.index.getD [] = vs.text_chunks.map encode) :
    (add_documents encode docs vs).index.getD []
      = (add_documents encode docs vs).text_chunks.map encode := by
  unfold add_documents
  cases hidx : vs.index with
  | none =>
    have : vs.text_chunks = [] := by
      have := h
      rw [hidx] at this
      simpa using (List.map_eq_nil_iff.mp this.symm)
    simp [this]
  | some rows =>
    have hrows : rows = vs.text_chunks.map encode := by
      have := h; rw [hidx] at this; simpa using this
    simp [hrows, List.map_append]

lemma foldl_vector_alignment {α : Type} (encode : String → Vec α)
    (calls : List (List String)) :
    ∀ vs : VectorIndexState α, vs.index.getD [] = vs.text_chunks.map encode →
      (calls.foldl (fun s docs => add_documents encode docs s) vs).index.getD []
        = (calls.foldl (fun s docs => add_documents encode docs s) vs).text_chunks.map encode := by
  induction calls with
  | nil => intro vs h; exact h
  | cons docs rest ih =>
    intro vs h
    exact ih _ (add_documents_alignment encode docs vs h)

/-- C2: after any sequence of ingest, full-refresh, and incremental-sync
operations starting from a fresh instance, the number of vectors in the
similarity index equals the number of stored chunk texts, and the i-th
vector is the embedding of the i-th chunk — for `MCPWrapperOllama`
(`index.ntotal = len(doc_chunks)`) and for `VectorIndex`
(`index.ntotal = len(text_chunks)`, each ingested file contributing one
`add_documents` call). -/
theorem index_chunk_alignment_invariant {α : Type} (chunk_size : Nat)
    (embedN encode : String → Vec α) (ops : List OllamaOp)
    (calls : List (List String)) :
    (((ops.foldl (applyOllamaOp chunk_size embedN) (ollamaInit α)).index.getD []).length
        = (ops.foldl (applyOllamaOp chunk_size embedN) (ollamaInit α)).doc_chunks.length
      ∧ ∀ i : Nat, ((ops.foldl (applyOllamaOp chunk_size embedN) (ollamaInit α)).index.getD [])[i]?
          = ((ops.foldl (applyOllamaOp chunk_size embedN) (ollamaInit α)).doc_chunks[i]?).map embedN)
    ∧ (((calls.foldl (fun s docs => add_documents encode docs s) (vectorIndexInit α)).index.getD []).length
        = (calls.foldl (fun s docs => add_documents encode docs s) (vectorIndexInit α)).text_chunks.length
      ∧ ∀ i : Nat, ((calls.foldl (fun s docs => add_documents encode docs s) (vectorIndexInit α)).index.getD [])[i]?
          = ((calls.foldl (fun s docs => add_documents encode docs s) (vectorIndexInit α)).text_chunks[i]?).map encode) := by
  have h1 := foldl_ollama_alignment chunk_size embedN ops (ollamaInit α) (by simp [ollamaInit])
  have h2 := foldl_vector_alignment encode calls (vectorIndexInit α) (by simp [vectorIndexInit])
  refine ⟨⟨?_, ?_⟩, ?_, ?_⟩
  · rw [h1, List.length_map]
  · intro i; rw [h1, List.getElem?_map]
  · rw [h2, List.length_map]
  · intro i; rw [h2, List.getElem?_map]

/-! ## Claim C1: threshold routing of the query policy -/

/-- C1 (amended): provided the best retrieved score is not exactly `-1`,
`query` classifies the grounding mode by the best retrieved score —
`STRICT_GROUNDED` when it meets `strong_threshold`, else `HYBRID_GROUNDED`
when it meets `weak_threshold`, else `UNGROUNDED` (including when retrieval
returns nothing) — and an empty or absent index is not an error: it routes
the bare question prompt to the generation gateway.  When the best score is
exactly `-1` the `if s != -1` filter drops it and classification no longer
follows the best score; in particular with `ntotal ≥ top_k` (no FAISS
padding) and every returned score equal to `-1` the score list comes out
empty and `scores[0]` raises an IndexError (the counterexample below). -/
theorem query_threshold_routing {α : Type} [LinearOrderedCommRing α]
    (pad : α) (embedN : String → Vec α) (gen : String → Except String String)
    (st : OllamaState α) (question : String) (strong weak : α) (top_k : Nat)
    (hbest : bestScoreOf embedN st question top_k ≠ some (-1)) :
    groundingModeOf (retrieve_with_scores pad embedN st question top_k).1
        (retrieve_with_scores pad embedN st question top_k).2 strong weak
      = some (specClassify false (bestScoreOf embedN st question top_k) strong weak)
    ∧ ((st.index = none ∨ st.doc_chunks = []) →
        query pad embedN gen st question strong weak top_k =
          match gen ("Question:\n" ++ question ++ "\nAnswer:") with
          | Except.ok t => Except.ok t
          | Except.error e => Except.error (QueryError.generationError e)) := by
  constructor
  · by_cases hguard : st.index.isNone || st.doc_chunks.isEmpty
    · simp [retrieve_with_scores, bestScoreOf, hguard, groundingModeOf, specClassify]
    · rw [retrieve_with_scores, if_neg hguard, bestScoreOf, if_neg hguard] at *
      cases hr : rankByIP (st.index.getD []) (embedN question) top_k with
      | nil => simp [groundingModeOf, specClassify, faissSearchIP, hr]
      | cons p rest =>
        rw [hr] at hbest
        simp only [List.map_cons, List.head?_cons] at hbest
        have hne : p.2 ≠ -1 := fun hc => hbest (by rw [hc])
        simp [groundingModeOf, specClassify, faissSearchIP, List.filter_cons,
          List.filter_append, hr, hne]
        split_ifs <;> rfl
  · intro hempty
    have hguard : st.index.isNone || st.doc_chunks.isEmpty := by
      rcases hempty with h | h <;> simp [h]
    rw [query, retrieve_with_scores, if_pos hguard]
    simp [queryPromptOf]

/-- C1 witness: the routing theorem instantiated at a one-chunk index whose
stored row scores 1 against the question, thresholds 1 and 0 and
`top_k = 5` (so four pad slots are present), showing the STRICT
classification. -/
theorem query_threshold_routing_witness :
    groundingModeOf
        (retrieve_with_scores faissPadScore (fun _ => [(1 : ℤ)]) ⟨some [[1]], ["c"], 0⟩ "q" 5).1
        (retrieve_with_scores faissPadScore (fun _ => [(1 : ℤ)]) ⟨some [[1]], ["c"], 0⟩ "q" 5).2 1 0
      = some (specClassify false (bestScoreOf (fun _ => [(1 : ℤ)]) ⟨some [[1]], ["c"], 0⟩ "q" 5) 1 0)
    ∧ (((⟨some [[1]], ["c"], 0⟩ : OllamaState ℤ).index = none
          ∨ (⟨some [[1]], ["c"], 0⟩ : OllamaState ℤ).doc_chunks = []) →
        query faissPadScore (fun _ => [(1 : ℤ)]) (fun _ => Except.ok "a")
            (⟨some [[1]], ["c"], 0⟩ : OllamaState ℤ) "q" 1 0 5 =
          match (fun _ => Except.ok "a" : String → Except String String)
              ("Question:\nq\nAnswer:") with
          | Except.ok t => Except.ok t
          | Except.error e => Except.error (QueryError.generationError e)) :=
  query_threshold_routing faissPadScore (fun _ => [(1 : ℤ)]) (fun _ => Except.ok "a")
    ⟨some [[1]], ["c"], 0⟩ "q" 1 0 5 (by decide)

/-- C1 counterexample: one stored chunk whose (normalised) row scores
exactly `-1` against the question, queried with `top_k = 1`, so FAISS
returns a full row of results and adds no padding.  The claim requires the
UNGROUNDED prompt (the best score is below both thresholds) and a generated
answer, but the `if s != -1` filter empties the score list while the chunk
list stays non-empty, so `scores[0]` raises an IndexError and `query`
produces no prompt and no answer. -/
theorem query_neg_one_score_counterexample :
    query faissPadScore (fun _ => [(1 : ℤ)]) (fun _ => Except.ok "ans")
        ⟨some [[-1]], ["c"], 0⟩ "q" 7 5 1 = Except.error QueryError.indexError
    ∧ specClassify false
        (bestScoreOf (fun _ => [(1 : ℤ)]) (⟨some [[-1]], ["c"], 0⟩ : OllamaState ℤ) "q" 1) 7 5
        = GroundingMode.ungrounded
    ∧ (fun _ => Except.ok "ans" : String → Except String String)
        ("Question:\nq\nAnswer:") = Except.ok "ans" := by
  exact ⟨rfl, by decide, rfl⟩

/-! ## Claim C6: no metric-direction comparator in the classification -/

/-- C6 counterexample: a score of 1 under a lower-is-better (distance)
metric with thresholds 7 and 5 should classify STRICT under the spec's
comparator semantics, but the code's classification applies `score >=
threshold` regardless and yields UNGROUNDED. -/
theorem classification_ignores_metric_counterexample :
    groundingModeOf ["c"] [(1 : ℤ)] 7 5 = some GroundingMode.ungrounded
    ∧ specClassify true (some (1 : ℤ)) 7 5 = GroundingMode.strict
    ∧ GroundingMode.ungrounded ≠ GroundingMode.strict := by decide

/-- C6 (amended): the classification is not parameterized by a score
comparator — on every input (whatever metric produced the scores) it
coincides with the spec comparator instantiated in the fixed
higher-is-better direction; in this code base only the inner-product
(cosine) `IndexFlatIP` ever feeds `query`, for which that direction is the
correct one, while the distance-based `VectorIndex` never reaches the
threshold classification. -/
theorem classification_uniform_ascending {α : Type} [LinearOrderedCommRing α]
    (chunks : List String) (scores : List α) (strong weak : α)
    (h : chunks.isEmpty ∨ scores ≠ []) :
    groundingModeOf chunks scores strong weak
      = some (specClassify false (if chunks.isEmpty then none else scores.head?)
          strong weak) := by
  by_cases hc : chunks.isEmpty
  · simp [groundingModeOf, specClassify, hc]
  · rcases h with h | h
    · exact absurd h hc
    · cases scores with
      | nil => exact absurd rfl h
      | cons s tail =>
        simp only [groundingModeOf, specClassify, hc, Bool.false_eq_true, if_false,
          List.head?_cons]
        split_ifs <;> rfl

/-- C6 witness: the amended theorem instantiated at one chunk with score 0
and thresholds 7 and 5. -/
theorem classification_uniform_ascending_witness :
    groundingModeOf ["c"] [(0 : ℤ)] 7 5
      = some (specClassify false
          (if (["c"] : List String).isEmpty then none else ([(0 : ℤ)]).head?) 7 5) :=
  classification_uniform_ascending ["c"] [(0 : ℤ)] 7 5 (Or.inr (by decide))

/-! ## Claim C7: literal prompt templates and verbatim gateway output -/

/-- C7: for a non-empty list of retrieved chunks (chunks produced by either
chunker are non-empty strings), the prompt `query` builds literally matches
the template of the selected grounding mode populated with the retrieved
chunk texts joined by blank lines and the question, and the generation
gateway's output is returned verbatim. -/
theorem prompt_matches_template {α : Type} [LinearOrderedCommRing α]
    (question : String) (strong weak : α) (chunks : List String) (scores : List α)
    (m : GroundingMode)
    (hne : chunks ≠ []) (hall : ∀ c ∈ chunks, c ≠ "")
    (hm : groundingModeOf chunks scores strong weak = some m) :
    queryPromptOf question strong weak chunks scores
      = some (specPromptTemplate m (pyJoin "\n\n" chunks) question)
    ∧ ∀ (pad : α) (embedN : String → Vec α) (gen : String → Except String String)
        (st : OllamaState α) (top_k : Nat) (a : String),
        retrieve_with_scores pad embedN st question top_k = (chunks, scores) →
        gen (specPromptTemplate m (pyJoin "\n\n" chunks) question) = Except.ok a →
        query pad embedN gen st question strong weak top_k = Except.ok a := by
  have h1 : queryPromptOf question strong weak chunks scores
      = some (specPromptTemplate m (pyJoin "\n\n" chunks) question) := by
    cases chunks with
    | nil => exact absurd rfl hne
    | cons c cs =>
      have hjoin : pyJoin "\n\n" (c :: cs) ≠ "" :=
        pyJoin_ne_empty "\n\n" c cs (hall c (List.mem_cons_self c cs))
      cases scores with
      | nil => simp [groundingModeOf] at hm
      | cons s tail =>
        by_cases hs1 : s ≥ strong
        · have hm' : m = GroundingMode.strict := by
            simp [groundingModeOf, hs1] at hm
            exact hm.symm
          subst hm'
          simp [queryPromptOf, build_prompt, hs1, hjoin, specPromptTemplate]
        · by_cases hs2 : s ≥ weak
          · have hm' : m = GroundingMode.hybrid := by
              simp [groundingModeOf, hs1, hs2] at hm
              exact hm.symm
            subst hm'
            simp [queryPromptOf, hs1, hs2, specPromptTemplate]
          · have hm' : m = GroundingMode.ungrounded := by
              simp [groundingModeOf, hs1, hs2] at hm
              exact hm.symm
            subst hm'
            simp [queryPromptOf, hs1, hs2, specPromptTemplate]
  refine ⟨h1, ?_⟩
  intro pad embedN gen st top_k a hret hgen
  simp only [query, hret, h1, hgen]

/-- C7 witness: the theorem instantiated at one retrieved chunk `"ctx"`
with score 1, thresholds 1 and 0 (STRICT mode). -/
theorem prompt_matches_template_witness :
    queryPromptOf "q" (1 : ℤ) 0 ["ctx"] [1]
      = some (specPromptTemplate GroundingMode.strict (pyJoin "\n\n" ["ctx"]) "q")
    ∧ ∀ (pad : ℤ) (embedN : String → Vec ℤ) (gen : String → Except String String)
        (st : OllamaState ℤ) (top_k : Nat) (a : String),
        retrieve_with_scores pad embedN st "q" top_k = (["ctx"], [1]) →
        gen (specPromptTemplate GroundingMode.strict (pyJoin "\n\n" ["ctx"]) "q")
          = Except.ok a →
        query pad embedN gen st "q" 1 0 top_k = Except.ok a :=
  prompt_matches_template "q" 1 0 ["ctx"] [1] GroundingMode.strict
    (by decide) (by decide) (by decide)

/-! ## Claim C9: generation-gateway failure surfaces as an error -/

/-- C9: whenever the prompt construction succeeds but the generation
gateway call fails, `query` propagates the failure as an explicit
generation error and returns no answer text. -/
theorem generation_failure_surfaces_error {α : Type} [LinearOrderedCommRing α]
    (pad : α) (embedN : String → Vec α) (gen : String → Except String String)
    (st : OllamaState α) (question : String) (strong weak : α) (top_k : Nat)
    (p e : String)
    (hp : queryPromptOf question strong weak
        (retrieve_with_scores pad embedN st question top_k).1
        (retrieve_with_scores pad embedN st question top_k).2 = some p)
    (he : gen p = Except.error e) :
    query pad embedN gen st question strong weak top_k
        = Except.error (QueryError.generationError e)
    ∧ ∀ a, query pad embedN gen st question strong weak top_k ≠ Except.ok a := by
  have h : query pad embedN gen st question strong weak top_k
      = Except.error (QueryError.generationError e) := by
    simp only [query, hp, he]
  exact ⟨h, fun a hc => by rw [h] at hc; exact Except.noConfusion hc⟩

/-- C9 witness: an empty store (so the bare question prompt is built) and a
gateway that raises; the query surfaces the generation error. -/
theorem generation_failure_surfaces_error_witness :
    query faissPadScore (fun _ => [(1 : ℤ)]) (fun _ => Except.error "gateway down")
        (ollamaInit ℤ) "q" 1 0 5
      = Except.error (QueryError.generationError "gateway down")
    ∧ ∀ a, query faissPadScore (fun _ => [(1 : ℤ)]) (fun _ => Except.error "gateway down")
        (ollamaInit ℤ) "q" 1 0 5 ≠ Except.ok a :=
  generation_failure_surfaces_error faissPadScore (fun _ => [(1 : ℤ)])
    (fun _ => Except.error "gateway down") (ollamaInit ℤ) "q" 1 0 5
    "Question:\nq\nAnswer:" "gateway down" rfl rfl

/-! ## Claim C3: duplicate ingest is a no-op -/

/-- C3: when the content hash of a readable file is already a key of the
store, `ingest_file` returns the `already_exists` result and leaves the
whole server state unchanged — no re-chunking, no vector-index or
chunk-metadata mutation, no change to the stored record (so ingesting
byte-identical content twice yields `already_exists` the second time with
the index chunk count unchanged). -/
theorem ingest_file_already_exists {α : Type} (encode : String → Vec α)
    (f : FileInput) (st : ServerState α) (n : Nat)
    (hex : f.exists_ = true) (hstat : f.statSize = Except.ok n)
    (hknown : (st.ingested_files.lookup (get_file_hash f)).isSome = true) :
    ingest_file encode f st
      = (IngestResult.alreadyExists (get_file_hash f)
          ("File already ingested: " ++ f.name), st) := by
  simp [ingest_file, hex, hstat, hknown]

/-- C3 witness: a store already holding hash `"h"` and a second file whose
bytes hash to `"h"`; the call reports `already_exists` and the state is
returned untouched. -/
theorem ingest_file_already_exists_witness :
    ingest_file (fun _ => ([] : Vec ℤ))
        ⟨"p", true, Except.ok "h", Except.ok 3, none, ".txt", "n", "/p",
          Except.error "x", "c", none, none, "now"⟩
        ⟨[("h", ⟨"h", "n", "/p", 3, "text/plain", "c", "now", []⟩)],
          vectorIndexInit ℤ, none⟩
      = (IngestResult.alreadyExists "h" "File already ingested: n",
          ⟨[("h", ⟨"h", "n", "/p", 3, "text/plain", "c", "now", []⟩)],
            vectorIndexInit ℤ, none⟩) :=
  ingest_file_already_exists (fun _ => ([] : Vec ℤ))
    ⟨"p", true, Except.ok "h", Except.ok 3, none, ".txt", "n", "/p",
      Except.error "x", "c", none, none, "now"⟩
    ⟨[("h", ⟨"h", "n", "/p", 3, "text/plain", "c", "now", []⟩)],
      vectorIndexInit ℤ, none⟩ 3 rfl rfl (by decide)

/-! ## Claim C10: `ingest_file` is total at its public interface -/

/-- C10: for every file input and state — including missing paths, hashing
or stat failures, PDF extraction failures, embedding-gateway failures and
persistence failures — `ingest_file` returns a result dict carrying either
a `status` key (`success` / `already_exists`) or an `error` key, and never
propagates an exception (the model is a total function whose every branch
returns one of these shapes). -/
theorem ingest_file_total_result_shape {α : Type} (encode : String → Vec α)
    (f : FileInput) (st : ServerState α) :
    "status" ∈ (resultDict (ingest_file encode f st).1).map (fun kv => kv.1)
    ∨ "error" ∈ (resultDict (ingest_file encode f st).1).map (fun kv => kv.1) := by
  rcases (ingest_file encode f st).1 with m | ⟨fid, msg⟩ | ⟨fid, n, sz, t⟩ <;>
    simp [resultDict]

/-! ## Claim C8: incremental sync appends only new files -/

lemma new_files_contains_eq (files : List (String × String))
    (ingested : List String) (p : String × String) (hp : p ∈ files) :
    ((files.map (fun q => q.1)).filter
        (fun id => ¬ ingested.contains id)).contains p.1
      = !(ingested.contains p.1) := by
  cases hi : ingested.contains p.1 with
  | false =>
    have hi' : p.1 ∉ ingested := by simpa using hi
    simp only [Bool.not_false]
    simp
    exact ⟨⟨p.2, by simpa using hp⟩, hi'⟩
  | true =>
    have hi' : p.1 ∈ ingested := by simpa using hi
    simp only [Bool.not_true]
    simp
    intro x _
    exact hi'

lemma sync_new_docs_eq (files : List (String × String)) (ingested : List String) :
    files.filter (fun p => ((files.map (fun q => q.1)).filter
        (fun id => ¬ ingested.contains id)).contains p.1)
      = files.filter (fun p => !(ingested.contains p.1)) :=
  List.filter_congr (fun p hp => new_files_contains_eq files ingested p hp)

/-- C8: incremental sync embeds and appends exactly the files whose ids are
in `currentIds − knownIds`: with no new files it performs no state change at
all (in particular zero embedding-gateway calls); with new files it appends
their chunks and vectors to the existing index without resetting it, makes
one embedding call per new document only, and the known-id set becomes the
current id set. -/
theorem sync_incremental_appends_only_new {α : Type} (chunk_size : Nat)
    (embedN : String → Vec α) (files : List (String × String))
    (ingested : List String) (st : OllamaState α) :
    ((files.map (fun p => p.1)).filter (fun id => ¬ ingested.contains id) = [] →
      syncIncremental chunk_size embedN files ingested st = (st, ingested))
    ∧ ((files.map (fun p => p.1)).filter (fun id => ¬ ingested.contains id) ≠ [] →
      syncIncremental chunk_size embedN files ingested st =
        ({ index := some (st.index.getD [] ++
              ((((files.filter (fun p => !(ingested.contains p.1))).map (fun p => p.2)).map
                (ollamaChunkText chunk_size)).flatten).map embedN),
           doc_chunks := st.doc_chunks ++
              (((files.filter (fun p => !(ingested.contains p.1))).map (fun p => p.2)).map
                (ollamaChunkText chunk_size)).flatten,
           embedCalls := st.embedCalls +
              ((files.filter (fun p => !(ingested.contains p.1))).map (fun p => p.2)).length },
         files.map (fun p => p.1))) := by
  constructor
  · intro hnew
    simp only [syncIncremental]
    rw [hnew]
    simp
  · intro hnew
    have hne : ¬ ((files.map (fun p => p.1)).filter
        (fun id => ¬ ingested.contains id)).isEmpty = true := by
      simpa [List.isEmpty_iff] using hnew
    have hdocs_ne : ¬ ((files.filter (fun p => !(ingested.contains p.1))).map
        (fun p => p.2)).isEmpty = true := by
      rw [List.isEmpty_iff, List.map_eq_nil_iff]
      intro hcontra
      rcases List.exists_mem_of_ne_nil _ hnew with ⟨id, hid⟩
      rw [List.mem_filter] at hid
      rcases List.mem_map.mp hid.1 with ⟨q, hqmem, hqeq⟩
      have hq : q ∈ files.filter (fun p => !(ingested.contains p.1)) := by
        rw [List.mem_filter]
        refine ⟨hqmem, ?_⟩
        have h2 := hid.2
        rw [← hqeq] at h2
        simpa using h2
      rw [hcontra] at hq
      exact absurd hq (List.not_mem_nil q)
    simp only [syncIncremental, sync_new_docs_eq files ingested, if_pos hne]
    simp only [ingest_documents, Bool.false_eq_true, if_false, if_neg hdocs_ne]

/-- C8 witness: one file `("id1", "a b")` not yet known: sync appends its
single chunk and vector with one embedding call and returns `["id1"]` as
the known-id set. -/
theorem sync_incremental_appends_only_new_witness :
    syncIncremental 2 (fun _ => [(1 : ℤ)]) [("id1", "a b")] [] (ollamaInit ℤ)
      = (⟨some [[1]], ["a b"], 1⟩, ["id1"]) := by
  have h := (sync_incremental_appends_only_new 2 (fun _ => [(1 : ℤ)])
    [("id1", "a b")] [] (ollamaInit ℤ)).2 (by decide)
  exact h.trans (by decide)
